import Mathlib

/-!
Verification of the yt-transcript CLI (src/ytt.py) against its
natural-language specification.

The program is shallowly embedded: the pure string-processing routines
(extract_video_id, sanitize_for_display, the language-list construction)
become Lean functions on String / List Char; the path guard
validate_output_path becomes a function that takes the outcome of the
filesystem resolution step (Path.resolve) as an explicit argument, since
resolution depends on the ambient filesystem; the fetch-and-emit
orchestration becomes a function from an abstract fetch outcome to the
observable effects (success flag, text written to stdout, text written to
the output file).

Python regular-expression search is embedded concretely for the three
fixed patterns of extract_video_id: a search scans start positions left to
right and the first position at which the pattern matches wins, exactly as
re.search does for these backtracking-free patterns.
-/

namespace Ytt

/-! ### Identifier extractor (src/ytt.py, extract_video_id, lines 41-61) -/

/-- Membership in the regex character class with digits, upper case, lower
case, underscore and hyphen, as written in all three patterns of
extract_video_id. -/
def isIdChar (c : Char) : Bool :=
  decide (('0' ≤ c ∧ c ≤ '9') ∨ ('A' ≤ c ∧ c ≤ 'Z') ∨ ('a' ≤ c ∧ c ≤ 'z')
    ∨ c = '_' ∨ c = '-')

/-- The capture of the subpattern with the character class repeated exactly
eleven times, applied at the current position: it succeeds exactly when the
next eleven characters exist and are all in the class, and captures them.
A trailing dot-star (present in the first pattern) matches unconditionally
and is therefore not represented. -/
def cap11 (cs : List Char) : Option (List Char) :=
  if (cs.take 11).length = 11 ∧ (cs.take 11).all isIdChar then some (cs.take 11) else none

/-- One anchored attempt of the first pattern of extract_video_id at the
current position: the group after a letter v with an equals sign, or after
a slash. The alternation tries the two-character branch first, as the
regex engine does; the branches start with distinct characters, so at most
one applies. -/
def p1At (cs : List Char) : Option (List Char) :=
  if cs.take 2 = ['v', '='] then cap11 (cs.drop 2)
  else if cs.take 1 = ['/'] then cap11 (cs.drop 1)
  else none

/-- re.search with the first pattern: try each start position from the
left, first success wins. -/
def searchP1 : List Char → Option (List Char)
  | [] => none
  | c :: rest =>
    match p1At (c :: rest) with
    | some v => some v
    | none => searchP1 rest

/-- One anchored attempt of the second pattern of extract_video_id at the
current position: the group after the six characters e, m, b, e, d, slash. -/
def p2At (cs : List Char) : Option (List Char) :=
  if cs.take 6 = ['e', 'm', 'b', 'e', 'd', '/'] then cap11 (cs.drop 6)
  else none

/-- re.search with the second pattern. -/
def searchP2 : List Char → Option (List Char)
  | [] => none
  | c :: rest =>
    match p2At (c :: rest) with
    | some v => some v
    | none => searchP2 rest

/-- re.search with the third, fully anchored pattern. The caret matches
only at position zero; the dollar matches at the end of the string or just
before a newline that ends the string, per Python semantics. -/
def p3Match (cs : List Char) : Option (List Char) :=
  if cs.length = 11 ∧ cs.all isIdChar then some cs
  else if cs.length = 12 ∧ cs.getLast? = some '\n' ∧ (cs.take 11).all isIdChar then
    some (cs.take 11)
  else none

/-- The second validation of extract_video_id (line 58): re.match of the
anchored eleven-character class pattern against the captured group. re.match
anchors at the start; the dollar again accepts a single trailing newline. -/
def revalidate (v : List Char) : Bool :=
  decide ((v.take 11).length = 11 ∧ (v.take 11).all isIdChar
    ∧ (v.length = 11 ∨ (v.length = 12 ∧ v.getLast? = some '\n')))

/-- The body of the for loop of extract_video_id for one pattern: a
structural match whose group fails the second validation is dropped and the
loop moves on to the next pattern. -/
def step (r : Option (List Char)) : Option (List Char) :=
  match r with
  | some v => if revalidate v then some v else none
  | none => none

/-- extract_video_id (lines 41-61): reject inputs longer than 500
characters, then try the three patterns in order; the first structural
match whose group passes the second validation is returned. -/
def extractCore (cs : List Char) : Option (List Char) :=
  if cs.length > 500 then none
  else
    match step (searchP1 cs) with
    | some v => some v
    | none =>
      match step (searchP2 cs) with
      | some v => some v
      | none => step (p3Match cs)

/-- String-level wrapper of extractCore. -/
def extract_video_id (s : String) : Option String :=
  (extractCore s.data).map String.mk

/-! ### sanitize_for_display (src/ytt.py, lines 64-70) -/

/-- sanitize_for_display: return the empty string on falsy input, else keep
the first fifty characters and drop those that are not printable. Python
printability comes from the Unicode database, which the embedding abstracts
as the predicate argument, so nothing here depends on its exact extent. -/
def sanitize_for_display (printableP : Char → Bool) (text : String) : String :=
  if text.data = [] then ""
  else String.mk ((text.data.take 50).filter printableP)

/-- The diagnostic line main prints when extract_video_id rejects the video
argument (src/ytt.py, lines 222-227). -/
def invalidVideoMessage (printableP : Char → Bool) (input : String) : String :=
  "Error: Could not extract video ID from: " ++ sanitize_for_display printableP input

/-! ### Output path guard (src/ytt.py, validate_output_path, lines 73-104) -/

/-- FORBIDDEN_PATHS (lines 28-35). -/
def FORBIDDEN_PATHS : List String :=
  ["/etc", "/sys", "/proc", "/boot", "/root", "/var",
   "/private/etc", "/private/var", "/System", "/Library", "/Applications",
   "/tmp", "/dev"]

/-- FORBIDDEN_FILENAMES (lines 37-38). -/
def FORBIDDEN_FILENAMES : List String :=
  [".env", ".git", "id_rsa", "authorized_keys", ".ssh"]

/-- Python whitespace stripped by str.strip, restricted to the ASCII range
that arises in paths: space, tab, newline, carriage return, vertical tab,
form feed. -/
def isPyWs (c : Char) : Bool :=
  decide (c = ' ' ∨ c = '\t' ∨ c = '\n' ∨ c = '\x0d' ∨ c = '\x0b' ∨ c = '\x0c')

/-- str.strip: drop whitespace from both ends. -/
def pyStrip (cs : List Char) : List Char :=
  ((cs.dropWhile isPyWs).reverse.dropWhile isPyWs).reverse

/-- str.startswith: character-wise starting match. -/
def pyStartsWith (s pre : String) : Bool :=
  pre.data.isPrefixOf s.data

/-- An absolute resolved path, as the list of its components; str of such a
path is a slash followed by the components joined by slashes, and the empty
component list is the filesystem root. The embedding assumes a filesystem
without symlinks, so resolving an existing FORBIDDEN_PATHS entry yields the
entry itself and the two startswith tests of line 90 coincide; resolution of
the candidate path itself stays an explicit argument below. -/
def pathStr (segs : List String) : String :=
  "/" ++ String.intercalate "/" segs

/-- Path.name of a resolved absolute path: the last component, or the empty
string at the root. -/
def pathName (segs : List String) : String :=
  (segs.getLast?).getD ""

/-- The system-directory test of lines 88-91: the first FORBIDDEN_PATHS
entry of which the resolved path string is a raw string-wise extension, if
any. -/
def systemDirHit (resolvedStr : String) : Option String :=
  FORBIDDEN_PATHS.find? (fun f => pyStartsWith resolvedStr f)

/-- Splitting on a separator character, with Python str.split semantics:
adjacent separators and separators at the ends produce empty fields, and
the empty string yields one empty field. -/
def splitOnChar (sep : Char) : List Char → List (List Char)
  | [] => [[]]
  | c :: rest =>
    let r := splitOnChar sep rest
    if c = sep then [] :: r
    else
      match r with
      | [] => [[c]]
      | s :: ss => (c :: s) :: ss

/-- Modelled from the spec: the intended system-directory containment test,
which the specification states in place of the raw prefix test of line 90.
A path is inside a deny-list entry exactly when the entry's slash-separated
components are a leading run of the path's components. -/
def systemDirHitSpecModel (resolvedStr : String) : Bool :=
  FORBIDDEN_PATHS.any (fun f => (splitOnChar '/' f.data).isPrefixOf (splitOnChar '/' resolvedStr.data))

/-- validate_output_path (lines 73-104), with the outcome of
Path(output_file).resolve() supplied as an argument: ok with the resolved
components, or error with the message of the raised ValueError or OSError.
parentExists reports whether output_path.parent exists. Returns the pair
is_valid, error_message exactly as the Python function does. -/
def validate_output_path (output_file : String)
    (resolution : Except String (List String)) (parentExists : Bool) :
    Bool × Option String :=
  if output_file.data = [] ∨ pyStrip output_file.data = [] then
    (false, some "Output path cannot be empty")
  else
    match resolution with
    | Except.error e => (false, some ("Invalid output path: " ++ e))
    | Except.ok segs =>
      match systemDirHit (pathStr segs) with
      | some f => (false, some ("Cannot write to system directory: " ++ f))
      | none =>
        if pathName segs ∈ FORBIDDEN_FILENAMES then
          (false, some ("Cannot overwrite protected file: " ++ pathName segs))
        else if parentExists = false then
          (false, some "Parent directory does not exist")
        else
          (true, none)

/-! ### Language preference list (src/ytt.py, MAX_LANGUAGES line 25 and
main lines 229-235) -/

/-- MAX_LANGUAGES (line 25). -/
def MAX_LANGUAGES : Nat := 10

/-- The user-supplied tags: the lang argument split on commas, each field
stripped, truncated to the first MAX_LANGUAGES entries. -/
def userLangs (l : String) : List String :=
  ((splitOnChar ',' l.data).map (fun cs => String.mk (pyStrip cs))).take MAX_LANGUAGES

/-- The language list main hands to download_transcript (lines 229-235):
with no lang argument, or an empty one, the list is just en; otherwise the
user tags, with en appended when absent. argparse leaves the option as
Python None when not given, and an empty string is equally falsy, so both
take the default branch. -/
def buildLanguages (langArg : Option String) : List String :=
  match langArg with
  | none => ["en"]
  | some l =>
    if l.data = [] then ["en"]
    else
      let languages := userLangs l
      if "en" ∈ languages then languages else languages ++ ["en"]

/-! ### Fetch-and-emit orchestration (src/ytt.py, download_transcript
lines 150-194 and main line 238) -/

/-- The outcome of the external transcript fetch, as the closed taxonomy of
exceptions the code catches: success carries the text field of each
returned entry, in order. -/
inductive FetchResult where
  | ok (entries : List String)
  | transcriptsDisabled
  | noTranscriptFound
  | videoUnavailable
  | invalidVideoId
  | otherError (exceptionType : String)

/-- The observable effects of the try block of download_transcript:
the returned success flag, the text written to standard output, and the
contents written to the output file when one was given. Diagnostic prints
go to standard error and are not tracked. -/
structure EmitResult where
  success : Bool
  stdoutText : String
  fileText : Option String

/-- The try block of download_transcript (lines 150-194), entered after the
output path, when present, has passed validate_output_path. On success the
entry texts are joined with newlines; the file write appends one explicit
trailing newline, and the stdout path gains the same trailing newline from
print. Every caught exception yields failure with no output written. -/
def download_transcript (fetch : FetchResult) (output_file : Option String) :
    EmitResult :=
  match fetch with
  | FetchResult.ok entries =>
    let joined := String.intercalate "\n" entries
    match output_file with
    | some _ => { success := true, stdoutText := "", fileText := some (joined ++ "\n") }
    | none => { success := true, stdoutText := joined ++ "\n", fileText := none }
  | _ => { success := false, stdoutText := "", fileText := none }

/-- The exit code main passes to sys.exit (line 238). -/
def mainExitCode (success : Bool) : Nat :=
  if success then 0 else 1

/-! ### Helper lemmas about the extractor -/

theorem cap11_some {cs v : List Char} (h : cap11 cs = some v) :
    v.length = 11 ∧ v.all isIdChar = true := by
  unfold cap11 at h
  split_ifs at h with hc
  cases h
  exact hc

theorem cap11_exact {cs : List Char} (h11 : cs.length = 11) (hid : cs.all isIdChar = true) :
    cap11 cs = some cs := by
  unfold cap11
  rw [List.take_of_length_le (by omega)]
  simp [h11, hid]

theorem p1At_some {cs v : List Char} (h : p1At cs = some v) :
    v.length = 11 ∧ v.all isIdChar = true := by
  unfold p1At at h
  split_ifs at h <;> exact cap11_some h

theorem p2At_some {cs v : List Char} (h : p2At cs = some v) :
    v.length = 11 ∧ v.all isIdChar = true := by
  unfold p2At at h
  split_ifs at h
  exact cap11_some h

theorem p3Match_some {cs v : List Char} (h : p3Match cs = some v) :
    v.length = 11 ∧ v.all isIdChar = true := by
  unfold p3Match at h
  split_ifs at h with h1 h2
  · cases h
    exact h1
  · cases h
    refine ⟨?_, h2.2.2⟩
    rw [List.length_take, h2.1]
    decide

theorem searchP1_some {cs v : List Char} (h : searchP1 cs = some v) :
    v.length = 11 ∧ v.all isIdChar = true := by
  induction cs with
  | nil => simp [searchP1] at h
  | cons c rest ih =>
    rw [searchP1] at h
    cases hp : p1At (c :: rest) with
    | some w =>
      rw [hp] at h
      have hw : w = v := Option.some.inj h
      subst hw
      exact p1At_some hp
    | none =>
      rw [hp] at h
      exact ih h

theorem searchP2_some {cs v : List Char} (h : searchP2 cs = some v) :
    v.length = 11 ∧ v.all isIdChar = true := by
  induction cs with
  | nil => simp [searchP2] at h
  | cons c rest ih =>
    rw [searchP2] at h
    cases hp : p2At (c :: rest) with
    | some w =>
      rw [hp] at h
      have hw : w = v := Option.some.inj h
      subst hw
      exact p2At_some hp
    | none =>
      rw [hp] at h
      exact ih h

theorem step_eq_some {r : Option (List Char)} {v : List Char} (h : step r = some v) :
    r = some v := by
  cases r with
  | none => simp [step] at h
  | some w =>
    simp only [step] at h
    split_ifs at h
    exact h

theorem revalidate_of_id {v : List Char} (h11 : v.length = 11) (hid : v.all isIdChar = true) :
    revalidate v = true := by
  unfold revalidate
  rw [List.take_of_length_le (by omega)]
  simp [h11, hid]

theorem extractCore_some {cs v : List Char} (h : extractCore cs = some v) :
    v.length = 11 ∧ v.all isIdChar = true := by
  unfold extractCore at h
  split_ifs at h with hlen
  cases h1 : step (searchP1 cs) with
    | some w =>
      rw [h1] at h
      have hw : w = v := Option.some.inj h
      subst hw
      exact searchP1_some (step_eq_some h1)
    | none =>
      rw [h1] at h
      cases h2 : step (searchP2 cs) with
      | some w =>
        rw [h2] at h
        have hw : w = v := Option.some.inj h
        subst hw
        exact searchP2_some (step_eq_some h2)
      | none =>
        rw [h2] at h
        exact p3Match_some (step_eq_some h)

/-! ### Claim theorems -/

/-- C5: every input string longer than 500 characters is rejected by the
identifier extractor, regardless of content. -/
theorem c5_long_input_rejected (s : String) (h : s.length > 500) :
    extract_video_id s = none := by
  have h' : s.data.length > 500 := h
  unfold extract_video_id extractCore
  rw [if_pos h']
  rfl

theorem c5_witness : extract_video_id (String.mk (List.replicate 501 'a')) = none :=
  c5_long_input_rejected _ (by
    show 500 < (List.replicate 501 'a').length
    rw [List.length_replicate]
    omega)

/-- C6: whenever the identifier extractor returns a non-rejection result,
that result is a string of exactly eleven characters, each drawn from the
class of digits, letters, underscore and hyphen. -/
theorem c6_extract_result_valid (s v : String) (h : extract_video_id s = some v) :
    v.length = 11 ∧ v.data.all isIdChar = true := by
  unfold extract_video_id at h
  cases hc : extractCore s.data with
  | none =>
    rw [hc] at h
    simp at h
  | some w =>
    rw [hc] at h
    have hv : String.mk w = v := Option.some.inj h
    have hw := extractCore_some hc
    subst hv
    exact hw

theorem c6_witness :
    extract_video_id "dQw4w9WgXcQ" = some "dQw4w9WgXcQ"
    ∧ ("dQw4w9WgXcQ" : String).length = 11
    ∧ ("dQw4w9WgXcQ" : String).data.all isIdChar = true := by
  refine ⟨by decide, ?_⟩
  exact c6_extract_result_valid "dQw4w9WgXcQ" "dQw4w9WgXcQ" (by decide)

/-- C4: the language argument de,fr yields exactly the list de, fr, en; the
argument en,de yields exactly en, de with no duplicate appended; swapping
the user tags swaps the head of the result, so user order is preserved. -/
theorem c4_concrete_language_lists :
    buildLanguages (some "de,fr") = ["de", "fr", "en"]
    ∧ buildLanguages (some "en,de") = ["en", "de"]
    ∧ buildLanguages (some "fr,de") = ["fr", "de", "en"] := by
  decide

/-- C3: the claim describes the intended segment-wise containment test, but
the source compares raw string prefixes, so the sibling path whose name
merely extends a deny-list entry as a string is rejected: the code disagrees
with the claim at that input, which the specification itself marks as a
known source defect. -/
theorem c3_sibling_path_divergence :
    systemDirHit "/varfoo" = some "/var"
    ∧ systemDirHitSpecModel "/varfoo" = false
    ∧ validate_output_path "/varfoo" (Except.ok ["varfoo"]) true
        = (false, some "Cannot write to system directory: /var")
    ∧ systemDirHitSpecModel "/var/log/syslog" = true
    ∧ systemDirHit "/home/user/notes.txt" = none := by
  decide

/-- C7: on a successful fetch the emitted transcript is the entry texts
joined by newlines; without an output file, stdout receives exactly the
joined text plus one trailing newline and the exit code is zero; with an
output file, the file receives the joined text plus a trailing newline. -/
theorem c7_transcript_emission :
    (download_transcript (FetchResult.ok ["Hello", "world"]) none).stdoutText = "Hello\nworld\n"
    ∧ (download_transcript (FetchResult.ok ["Hello", "world"]) none).success = true
    ∧ mainExitCode (download_transcript (FetchResult.ok ["Hello", "world"]) none).success = 0
    ∧ (∀ entries : List String, ∀ f : String,
        (download_transcript (FetchResult.ok entries) (some f)).fileText
          = some (String.intercalate "\n" entries ++ "\n"))
    ∧ (∀ entries : List String,
        (download_transcript (FetchResult.ok entries) none).stdoutText
          = String.intercalate "\n" entries ++ "\n") := by
  exact ⟨by decide, rfl, rfl, fun _ _ => rfl, fun _ => rfl⟩

/-- C2, counterexample: ten user tags, none of them en, are all kept by the
truncation and en is then appended, so the list handed to the fetch call has
eleven entries, not at most ten as the claim states. -/
theorem c2_counterexample :
    (buildLanguages (some "a0,a1,a2,a3,a4,a5,a6,a7,a8,a9")).length = 11
    ∧ ¬ (buildLanguages (some "a0,a1,a2,a3,a4,a5,a6,a7,a8,a9")).length ≤ 10 := by
  decide

/-- C2 as amended: the list handed to the fetch call has at most eleven
entries: the user-given tags are capped at ten, and en is appended exactly
when it is absent from the kept tags, so en is always present and the total
can reach eleven. -/
theorem c2_amended_language_cap (langArg : Option String) :
    (buildLanguages langArg).length ≤ 11 ∧ "en" ∈ buildLanguages langArg
    ∧ ∀ l, langArg = some l → l.data ≠ [] →
        (userLangs l).length ≤ MAX_LANGUAGES
        ∧ ((buildLanguages langArg = userLangs l ∧ "en" ∈ userLangs l)
          ∨ (buildLanguages langArg = userLangs l ++ ["en"] ∧ "en" ∉ userLangs l)) := by
  have hu : ∀ l : String, (userLangs l).length ≤ MAX_LANGUAGES := by
    intro l
    unfold userLangs
    rw [List.length_take]
    exact Nat.min_le_left _ _
  have hmax : MAX_LANGUAGES = 10 := rfl
  cases langArg with
  | none =>
    refine ⟨by simp [buildLanguages], by simp [buildLanguages], ?_⟩
    intro l hl
    exact absurd hl (by simp)
  | some l =>
    by_cases hne : l.data = []
    · refine ⟨by simp [buildLanguages, hne], by simp [buildLanguages, hne], ?_⟩
      intro l' hl' hne'
      have heq : l' = l := by
        injection hl' with h
        exact h.symm
      subst heq
      exact absurd hne hne'
    · by_cases hen : "en" ∈ userLangs l
      · have hb : buildLanguages (some l) = userLangs l := by
          simp [buildLanguages, hne, hen]
        refine ⟨?_, ?_, ?_⟩
        · rw [hb]
          have := hu l
          omega
        · rw [hb]
          exact hen
        · intro l' hl' _
          have heq : l' = l := by
            injection hl' with h
            exact h.symm
          subst heq
          exact ⟨hu l', Or.inl ⟨hb, hen⟩⟩
      · have hb : buildLanguages (some l) = userLangs l ++ ["en"] := by
          simp [buildLanguages, hne, hen]
        refine ⟨?_, ?_, ?_⟩
        · rw [hb, List.length_append]
          have := hu l
          simp only [List.length_cons, List.length_nil]
          omega
        · rw [hb]
          simp
        · intro l' hl' _
          have heq : l' = l := by
            injection hl' with h
            exact h.symm
          subst heq
          exact ⟨hu l', Or.inr ⟨hb, hen⟩⟩

theorem c2_amended_witness :
    (some "fr" : Option String) = some "fr"
    ∧ ("fr" : String).data ≠ []
    ∧ (buildLanguages (some "fr")).length ≤ 11
    ∧ "en" ∈ buildLanguages (some "fr")
    ∧ (userLangs "fr").length ≤ MAX_LANGUAGES
    ∧ buildLanguages (some "fr") = userLangs "fr" ++ ["en"] := by
  have h := c2_amended_language_cap (some "fr")
  have h3 := h.2.2 "fr" rfl (by decide)
  refine ⟨rfl, by decide, h.1, h.2.1, h3.1, ?_⟩
  rcases h3.2 with ⟨_, hmem⟩ | ⟨heq, _⟩
  · exact absurd hmem (by decide)
  · exact heq

/-- C8: every candidate whose resolved final component is one of the fixed
sensitive filenames is rejected by the output path guard with a reason,
whatever the raw argument and whether or not the parent directory exists. -/
theorem c8_forbidden_filename_rejected (raw : String) (segs : List String) (pe : Bool)
    (h : pathName segs ∈ FORBIDDEN_FILENAMES) :
    (validate_output_path raw (Except.ok segs) pe).1 = false
    ∧ (validate_output_path raw (Except.ok segs) pe).2 ≠ none := by
  unfold validate_output_path
  by_cases hempty : raw.data = [] ∨ pyStrip raw.data = []
  · rw [if_pos hempty]
    exact ⟨rfl, by simp⟩
  · rw [if_neg hempty]
    cases hsd : systemDirHit (pathStr segs) with
    | some f => simp [hsd]
    | none => simp [hsd, h]

theorem c8_witness :
    pathName ["home", "u", ".env"] ∈ FORBIDDEN_FILENAMES
    ∧ (validate_output_path "/home/u/.env" (Except.ok ["home", "u", ".env"]) true).1 = false
    ∧ (validate_output_path "/home/u/.env" (Except.ok ["home", "u", ".env"]) true).2 ≠ none := by
  refine ⟨by decide, ?_⟩
  exact c8_forbidden_filename_rejected "/home/u/.env" ["home", "u", ".env"] true (by decide)

/-- C9: the output path guard is total over raw inputs and resolution
outcomes: a resolution error becomes a rejection carrying a reason, an empty
or whitespace-only path is rejected before resolution is even consulted, and
more generally every rejection carries a reason rather than an exception. -/
theorem c9_guard_total (raw : String) (res : Except String (List String)) (pe : Bool) :
    (∀ e, res = Except.error e →
      (validate_output_path raw res pe).1 = false
      ∧ (validate_output_path raw res pe).2 ≠ none)
    ∧ (pyStrip raw.data = [] →
      validate_output_path raw res pe = (false, some "Output path cannot be empty"))
    ∧ ((validate_output_path raw res pe).1 = false →
      (validate_output_path raw res pe).2 ≠ none) := by
  refine ⟨?_, ?_, ?_⟩
  · intro e he
    subst he
    unfold validate_output_path
    by_cases hempty : raw.data = [] ∨ pyStrip raw.data = []
    · rw [if_pos hempty]
      exact ⟨rfl, by simp⟩
    · rw [if_neg hempty]
      exact ⟨rfl, by simp⟩
  · intro hws
    unfold validate_output_path
    rw [if_pos (Or.inr hws)]
  · unfold validate_output_path
    by_cases hempty : raw.data = [] ∨ pyStrip raw.data = []
    · rw [if_pos hempty]
      intro _
      simp
    · rw [if_neg hempty]
      cases res with
      | error e =>
        intro _
        simp
      | ok segs =>
        cases hsd : systemDirHit (pathStr segs) with
        | some f =>
          intro _
          simp [hsd]
        | none =>
          by_cases hname : pathName segs ∈ FORBIDDEN_FILENAMES
          · intro _
            simp [hsd, hname]
          · by_cases hpe : pe = false
            · intro _
              simp [hsd, hname, hpe]
            · intro hfalse
              simp [hsd, hname, hpe] at hfalse

theorem c9_witness :
    pyStrip (" " : String).data = []
    ∧ validate_output_path " " (Except.error "boom") true
        = (false, some "Output path cannot be empty")
    ∧ (validate_output_path " " (Except.error "boom") true).1 = false
    ∧ (validate_output_path " " (Except.error "boom") true).2 ≠ none := by
  have h := c9_guard_total " " (Except.error "boom") true
  exact ⟨by decide, h.2.1 (by decide), (h.1 "boom" rfl).1, (h.1 "boom" rfl).2⟩

/-- C10: for every printability predicate and every input string, the
sanitized text echoed in the diagnostic line has length at most fifty and
contains only characters the predicate accepts, so raw input is never
printed unbounded. -/
theorem c10_sanitizer_bounds (printableP : Char → Bool) (text : String) :
    invalidVideoMessage printableP text
      = "Error: Could not extract video ID from: " ++ sanitize_for_display printableP text
    ∧ (sanitize_for_display printableP text).length ≤ 50
    ∧ ∀ c ∈ (sanitize_for_display printableP text).data, printableP c = true := by
  refine ⟨rfl, ?_, ?_⟩
  · unfold sanitize_for_display
    split_ifs
    · decide
    · show ((text.data.take 50).filter printableP).length ≤ 50
      calc ((text.data.take 50).filter printableP).length
          ≤ (text.data.take 50).length := List.length_filter_le _ _
        _ ≤ 50 := by
            rw [List.length_take]
            exact Nat.min_le_left _ _
  · unfold sanitize_for_display
    split_ifs
    · intro c hc
      exact absurd hc (by simp)
    · intro c hc
      have hc' : c ∈ (text.data.take 50).filter printableP := hc
      exact (List.mem_filter.mp hc').2

theorem c10_witness :
    'a' ∈ (sanitize_for_display (fun c => decide (' ' ≤ c ∧ c ≤ '~')) "a\x01b").data
    ∧ (fun c => decide (' ' ≤ c ∧ c ≤ '~')) 'a' = true := by
  refine ⟨by decide, ?_⟩
  exact (c10_sanitizer_bounds (fun c => decide (' ' ≤ c ∧ c ≤ '~')) "a\x01b").2.2 'a' (by decide)

/-! ### Scan lemmas for the first pattern, toward the claim about URLs -/

theorem p1At_cons_none {c1 c2 : Char} (rest : List Char)
    (h1 : ¬ (c1 = 'v' ∧ c2 = '=')) (h2 : c1 ≠ '/') :
    p1At (c1 :: c2 :: rest) = none := by
  unfold p1At
  have e2 : (c1 :: c2 :: rest).take 2 = [c1, c2] := rfl
  have e1 : (c1 :: c2 :: rest).take 1 = [c1] := rfl
  have n1 : ¬ ([c1, c2] = ['v', '=']) := by
    intro he
    refine h1 ⟨(List.cons_eq_cons.mp he).1, ?_⟩
    exact (List.cons_eq_cons.mp (List.cons_eq_cons.mp he).2).1
  have n2 : ¬ ([c1] = ['/']) := by
    intro he
    exact h2 (List.cons_eq_cons.mp he).1
  rw [e2, e1, if_neg n1, if_neg n2]

theorem p1At_veq (rest : List Char) : p1At ('v' :: '=' :: rest) = cap11 rest := by
  unfold p1At
  rw [if_pos (show ('v' :: '=' :: rest).take 2 = ['v', '='] from rfl)]
  rfl

theorem p1At_slash (rest : List Char) : p1At ('/' :: rest) = cap11 rest := by
  unfold p1At
  have n1 : ¬ (('/' :: rest).take 2 = ['v', '=']) := by
    intro he
    have e : ('/' :: rest).take 2 = '/' :: rest.take 1 := rfl
    rw [e] at he
    exact absurd (List.cons_eq_cons.mp he).1 (by decide)
  rw [if_neg n1, if_pos (show ('/' :: rest).take 1 = ['/'] from rfl)]
  rfl

theorem searchP1_cons_of_none {c : Char} {rest : List Char} (h : p1At (c :: rest) = none) :
    searchP1 (c :: rest) = searchP1 rest := by
  rw [searchP1, h]

theorem searchP1_cons_of_some {c : Char} {rest v : List Char} (h : p1At (c :: rest) = some v) :
    searchP1 (c :: rest) = some v := by
  rw [searchP1, h]

theorem p1At_of_idChars {cs : List Char} (h : cs.all isIdChar = true) : p1At cs = none := by
  unfold p1At
  split_ifs with h1 h2
  · exfalso
    have hmem : '=' ∈ cs.take 2 := by
      rw [h1]
      simp
    have hval : isIdChar '=' = true := List.all_eq_true.mp h '=' (List.mem_of_mem_take hmem)
    exact absurd hval (by decide)
  · exfalso
    have hmem : '/' ∈ cs.take 1 := by
      rw [h2]
      simp
    have hval : isIdChar '/' = true := List.all_eq_true.mp h '/' (List.mem_of_mem_take hmem)
    exact absurd hval (by decide)
  · rfl

theorem p2At_of_idChars {cs : List Char} (h : cs.all isIdChar = true) : p2At cs = none := by
  unfold p2At
  split_ifs with h1
  · exfalso
    have hmem : '/' ∈ cs.take 6 := by
      rw [h1]
      simp
    have hval : isIdChar '/' = true := List.all_eq_true.mp h '/' (List.mem_of_mem_take hmem)
    exact absurd hval (by decide)
  · rfl

theorem searchP1_of_idChars {cs : List Char} (h : cs.all isIdChar = true) : searchP1 cs = none := by
  induction cs with
  | nil => rfl
  | cons c rest ih =>
    rw [searchP1, p1At_of_idChars h]
    have h' : rest.all isIdChar = true := by
      rw [List.all_cons] at h
      exact (Bool.and_eq_true_iff.mp h).2
    exact ih h'

theorem searchP2_of_idChars {cs : List Char} (h : cs.all isIdChar = true) : searchP2 cs = none := by
  induction cs with
  | nil => rfl
  | cons c rest ih =>
    rw [searchP2, p2At_of_idChars h]
    have h' : rest.all isIdChar = true := by
      rw [List.all_cons] at h
      exact (Bool.and_eq_true_iff.mp h).2
    exact ih h'

/-- When no position inside the leading segment starts a pattern-one match,
the left-to-right scan passes over it. -/
theorem searchP1_append (xs ys : List Char)
    (h : ∀ i, i < xs.length → p1At ((xs ++ ys).drop i) = none) :
    searchP1 (xs ++ ys) = searchP1 ys := by
  induction xs with
  | nil => rfl
  | cons c xs ih =>
    have h0 : p1At (c :: (xs ++ ys)) = none := by
      have hh := h 0 (by simp)
      simpa using hh
    rw [List.cons_append, searchP1_cons_of_none h0]
    refine ih (fun i hi => ?_)
    have hh := h (i + 1) (by simpa using Nat.succ_lt_succ hi)
    simpa [List.drop_succ_cons] using hh

theorem searchP1_watch {Sd : List Char} (h11 : Sd.length = 11) (hid : Sd.all isIdChar = true) :
    searchP1 ('w' :: 'a' :: 't' :: 'c' :: 'h' :: '?' :: 'v' :: '=' :: Sd) = some Sd := by
  rw [searchP1_cons_of_none (p1At_cons_none _ (by decide) (by decide))]
  rw [searchP1_cons_of_none (p1At_cons_none _ (by decide) (by decide))]
  rw [searchP1_cons_of_none (p1At_cons_none _ (by decide) (by decide))]
  rw [searchP1_cons_of_none (p1At_cons_none _ (by decide) (by decide))]
  rw [searchP1_cons_of_none (p1At_cons_none _ (by decide) (by decide))]
  rw [searchP1_cons_of_none (p1At_cons_none _ (by decide) (by decide))]
  rw [searchP1_cons_of_some (by rw [p1At_veq]; exact cap11_exact h11 hid)]

theorem searchP1_embed {Sd : List Char} (h11 : Sd.length = 11) (hid : Sd.all isIdChar = true) :
    searchP1 ('e' :: 'm' :: 'b' :: 'e' :: 'd' :: '/' :: Sd) = some Sd := by
  rw [searchP1_cons_of_none (p1At_cons_none _ (by decide) (by decide))]
  rw [searchP1_cons_of_none (p1At_cons_none _ (by decide) (by decide))]
  rw [searchP1_cons_of_none (p1At_cons_none _ (by decide) (by decide))]
  rw [searchP1_cons_of_none (p1At_cons_none _ (by decide) (by decide))]
  rw [searchP1_cons_of_none (p1At_cons_none _ (by decide) (by decide))]
  rw [searchP1_cons_of_some (by rw [p1At_slash]; exact cap11_exact h11 hid)]

/-- A bare valid identifier is returned unchanged: the first two patterns
find nothing in it and the anchored third pattern matches it whole. -/
theorem extract_of_id11 (S : String) (h11 : S.length = 11) (hid : S.data.all isIdChar = true) :
    extract_video_id S = some S := by
  have h1 : searchP1 S.data = none := searchP1_of_idChars hid
  have h2 : searchP2 S.data = none := searchP2_of_idChars hid
  have h3 : p3Match S.data = some S.data := by
    unfold p3Match
    rw [if_pos ⟨h11, hid⟩]
  have hlen : ¬ S.data.length > 500 := by
    have hl : S.data.length = 11 := h11
    omega
  unfold extract_video_id extractCore
  rw [if_neg hlen, h1, h2, h3]
  simp [step, revalidate_of_id h11 hid]

/-- C1, counterexample: the claim quantifies over every string ending in
watch?v= followed by a valid identifier S, but a prefix that itself contains
a slash followed by eleven identifier characters is matched first by the
left-to-right scan of the first pattern, so the extractor returns that
earlier capture instead of S. -/
theorem c1_counterexample :
    ("aaaaaaaaaaa" : String).length = 11
    ∧ ("aaaaaaaaaaa" : String).data.all isIdChar = true
    ∧ ("/00000000000watch?v=aaaaaaaaaaa" : String)
        = "/00000000000" ++ "watch?v=" ++ "aaaaaaaaaaa"
    ∧ ("/00000000000watch?v=aaaaaaaaaaa" : String).length ≤ 500
    ∧ extract_video_id "/00000000000watch?v=aaaaaaaaaaa" = some "00000000000"
    ∧ ¬ extract_video_id "/00000000000watch?v=aaaaaaaaaaa" = some "aaaaaaaaaaa" := by
  decide

/-- C1 as amended: a valid eleven-character identifier S is extracted
unchanged from S itself, from any string ending in watch?v= followed by S,
and from any string ending in embed/ followed by S, each of length at most
500 characters, provided the part of the string before that ending gives the
first pattern no earlier match, that is, no position inside the leading part
starts an occurrence of v-equals or a slash followed by eleven identifier
characters; otherwise the leftmost such capture is returned instead. -/
theorem c1_amended_extractor (S p : String)
    (h11 : S.length = 11) (hid : S.data.all isIdChar = true)
    (hw : (p ++ "watch?v=" ++ S).length ≤ 500)
    (he : (p ++ "embed/" ++ S).length ≤ 500)
    (hpw : ∀ i, i < p.length → p1At ((p ++ "watch?v=" ++ S).data.drop i) = none)
    (hpe : ∀ i, i < p.length → p1At ((p ++ "embed/" ++ S).data.drop i) = none) :
    extract_video_id S = some S
    ∧ extract_video_id (p ++ "watch?v=" ++ S) = some S
    ∧ extract_video_id (p ++ "embed/" ++ S) = some S := by
  refine ⟨extract_of_id11 S h11 hid, ?_, ?_⟩
  · have hdata : (p ++ "watch?v=" ++ S).data
        = p.data ++ ('w' :: 'a' :: 't' :: 'c' :: 'h' :: '?' :: 'v' :: '=' :: S.data) := by
      rw [String.data_append, String.data_append, List.append_assoc]
      rfl
    have h' : ∀ i, i < p.data.length →
        p1At ((p.data ++ ('w' :: 'a' :: 't' :: 'c' :: 'h' :: '?' :: 'v' :: '=' :: S.data)).drop i)
          = none := by
      intro i hi
      have hh := hpw i hi
      rw [hdata] at hh
      exact hh
    have hs1 : searchP1 ((p ++ "watch?v=" ++ S).data) = some S.data := by
      rw [hdata, searchP1_append _ _ h']
      exact searchP1_watch h11 hid
    have hlen : ¬ (p ++ "watch?v=" ++ S).data.length > 500 := by
      have h0 : (p ++ "watch?v=" ++ S).data.length ≤ 500 := hw
      omega
    unfold extract_video_id extractCore
    rw [if_neg hlen, hs1]
    simp [step, revalidate_of_id h11 hid]
  · have hdata : (p ++ "embed/" ++ S).data
        = p.data ++ ('e' :: 'm' :: 'b' :: 'e' :: 'd' :: '/' :: S.data) := by
      rw [String.data_append, String.data_append, List.append_assoc]
      rfl
    have h' : ∀ i, i < p.data.length →
        p1At ((p.data ++ ('e' :: 'm' :: 'b' :: 'e' :: 'd' :: '/' :: S.data)).drop i) = none := by
      intro i hi
      have hh := hpe i hi
      rw [hdata] at hh
      exact hh
    have hs1 : searchP1 ((p ++ "embed/" ++ S).data) = some S.data := by
      rw [hdata, searchP1_append _ _ h']
      exact searchP1_embed h11 hid
    have hlen : ¬ (p ++ "embed/" ++ S).data.length > 500 := by
      have h0 : (p ++ "embed/" ++ S).data.length ≤ 500 := he
      omega
    unfold extract_video_id extractCore
    rw [if_neg hlen, hs1]
    simp [step, revalidate_of_id h11 hid]

theorem c1_witness :
    ("b2X_c9Yd-0Z" : String).length = 11
    ∧ ("b2X_c9Yd-0Z" : String).data.all isIdChar = true
    ∧ ("" ++ "watch?v=" ++ "b2X_c9Yd-0Z" : String).length ≤ 500
    ∧ ("" ++ "embed/" ++ "b2X_c9Yd-0Z" : String).length ≤ 500
    ∧ extract_video_id "b2X_c9Yd-0Z" = some "b2X_c9Yd-0Z"
    ∧ extract_video_id ("" ++ "watch?v=" ++ "b2X_c9Yd-0Z") = some "b2X_c9Yd-0Z"
    ∧ extract_video_id ("" ++ "embed/" ++ "b2X_c9Yd-0Z") = some "b2X_c9Yd-0Z" := by
  have h := c1_amended_extractor "b2X_c9Yd-0Z" "" (by decide) (by decide) (by decide) (by decide)
    (fun i hi => absurd hi (Nat.not_lt_zero i)) (fun i hi => absurd hi (Nat.not_lt_zero i))
  exact ⟨by decide, by decide, by decide, by decide, h.1, h.2.1, h.2.2⟩

/-- Sanity of the embedding on the worked examples of the spec: full URLs
of both shapes, a non-URL argument, a benign output path, and the classic
deny-list hit behave as documented. -/
theorem embedding_sanity :
    extract_video_id "https://www.youtube.com/watch?v=dQw4w9WgXcQ" = some "dQw4w9WgXcQ"
    ∧ extract_video_id "https://www.youtube.com/embed/dQw4w9WgXcQ" = some "dQw4w9WgXcQ"
    ∧ extract_video_id "not a url" = none
    ∧ (validate_output_path "out.txt" (Except.ok ["home", "u", "out.txt"]) true).1 = true
    ∧ systemDirHit "/etc/passwd" = some "/etc"
    ∧ buildLanguages none = ["en"] := by
  decide

end Ytt
